import Mathlib

/-!
# Verification of the CodeCompanion realtime audio client

A shallow embedding of the repository's realtime audio pipeline
(`src/App.tsx`, `src/types.ts`) together with proofs about its
scheduling, interruption, capture, lifecycle and cleanup behaviour.

Conventions of the embedding:
* the mutable refs and React state of the `App` component become the
  fields of an `AppState` structure; each event handler of the source
  becomes a pure state-transition function;
* clock reads (`outputCtx.currentTime`) become explicit parameters of
  the handlers that perform them;
* audio sample values are modelled by `ℚ` where the source computes with
  them exactly (scaling, clamping), and by `ℝ` where the source takes a
  square root (`Math.sqrt` in the volume meter);
* the random log `id` and wall-clock `timestamp` of a `LogMessage` are
  environment-supplied metadata never examined by the program, so a log
  entry is modelled by its sender and text.
-/

/-- The `sender` union type of `LogMessage` in `src/types.ts`. -/
inductive Sender where
  | user
  | ai
  | system
deriving DecidableEq, Repr

/-- `LogMessage` of `src/types.ts`, restricted to the fields the program
reads (the random `id` and the `timestamp` are display metadata). -/
structure LogMessage where
  sender : Sender
  text : String
deriving DecidableEq, Repr

/-- `ConnectionState` of `src/types.ts`. -/
inductive ConnectionState where
  | DISCONNECTED
  | CONNECTING
  | CONNECTED
  | ERROR
deriving DecidableEq, Repr

/-- A microphone track of the captured media stream: the program only
reads and writes its `enabled` flag (`toggleMic` in `src/App.tsx`). -/
structure MediaTrack where
  enabled : Bool
deriving DecidableEq, Repr

/-- A playback unit (`AudioBufferSourceNode`) as the scheduler observes
it: the time `source.start` was called with, and the buffer duration. -/
structure SchedUnit where
  start : ℚ
  dur : ℚ
deriving DecidableEq, Repr

/-- The mutable state of the `App` component in `src/App.tsx`: its React
state hooks and refs.  Host objects held by refs are modelled by
`Option` values (`none` = the ref was nulled).  `remoteClosed` is a
ghost flag recording whether any close/terminate operation was ever
invoked on the remote session object, and `consoleErrors` counts
`console.error` calls; neither is read by the program. -/
structure AppState where
  connectionState : ConnectionState
  logs : List LogMessage
  isMicOn : Bool
  volume : ℝ
  aiVolume : ℝ
  inputCtx : Option Unit
  outputCtx : Option Unit
  mediaStream : Option (List MediaTrack)
  processor : Option Unit
  sourceNode : Option Unit
  sessionPromise : Option Unit
  nextStartTime : ℚ
  audioSources : List SchedUnit
  remoteClosed : Bool
  consoleErrors : ℕ

/-- `addLog` in `src/App.tsx`: append one entry to the log list. -/
def addLog (sender : Sender) (text : String) (s : AppState) : AppState :=
  { s with logs := s.logs ++ [⟨sender, text⟩] }

/-- `cleanupAudio` in `src/App.tsx`: stop every active playback unit and
clear the set, disconnect and null the processor and source nodes, stop
the microphone tracks and release the stream, close and null both audio
contexts, and reset both volume indicators.  Each `try`/null-guard of
the source makes the function total, which the model reflects by being
a total function. -/
def cleanupAudio (s : AppState) : AppState :=
  { s with
    audioSources := []
    processor := none
    sourceNode := none
    mediaStream := none
    inputCtx := none
    outputCtx := none
    volume := 0
    aiVolume := 0 }

example : "ab".data = ['a', 'b'] := rfl

example (s : AppState) : cleanupAudio (cleanupAudio s) = cleanupAudio s := by
  cases s; rfl

/-!
## PCM encoder/decoder (spec §4.1)

The repository imports `decode`, `decodeAudioData` and `createBlob` from
`src/utils/audioUtils`, a file that is not present under `src/`; the
definitions below are therefore modelled from the spec, under the spec's
names `encodeFrame` / `decodeFrame` / `decodeAudioData`.
-/

/-- The base64 alphabet, in index order. -/
def b64Alphabet : List Char :=
  "ABCDEFGHIJKLMNOPQRSTUVWXYZabcdefghijklmnopqrstuvwxyz0123456789+/".toList

/-- The base64 digit for a 6-bit value. -/
def b64Char (n : ℕ) : Char := b64Alphabet.getD n 'A'

/-- The 6-bit value of a base64 digit, `none` for any other character. -/
def b64Val (c : Char) : Option ℕ :=
  if c ∈ b64Alphabet then some (b64Alphabet.indexOf c) else none

/-- base64-encode one full 3-byte group as 4 digits. -/
def base64EncodeChunk (a b c : ℕ) : List Char :=
  [b64Char (a / 4), b64Char (a % 4 * 16 + b / 16),
   b64Char (b % 16 * 4 + c / 64), b64Char (c % 64)]

/-- base64 encoding of a byte sequence, with `=`-padding of the final
partial group. -/
def base64Encode : List ℕ → List Char
  | [] => []
  | [a] => [b64Char (a / 4), b64Char (a % 4 * 16), '=', '=']
  | [a, b] => [b64Char (a / 4), b64Char (a % 4 * 16 + b / 16), b64Char (b % 16 * 4), '=']
  | a :: b :: c :: rest => base64EncodeChunk a b c ++ base64Encode rest

/-- base64 decoding; `none` on any malformed input (wrong length,
character outside the alphabet, misplaced padding). -/
def base64Decode : List Char → Option (List ℕ)
  | [] => some []
  | c1 :: c2 :: c3 :: c4 :: rest =>
    match b64Val c1, b64Val c2 with
    | some v1, some v2 =>
      if c3 = '=' ∧ c4 = '=' ∧ rest = [] then
        some [v1 * 4 + v2 / 16]
      else if c4 = '=' ∧ rest = [] then
        match b64Val c3 with
        | some v3 => some [v1 * 4 + v2 / 16, v2 % 16 * 16 + v3 / 4]
        | none => none
      else
        match b64Val c3, b64Val c4, base64Decode rest with
        | some v3, some v4, some tail =>
          some ((v1 * 4 + v2 / 16) :: (v2 % 16 * 16 + v3 / 4) :: (v3 % 4 * 64 + v4) :: tail)
        | _, _, _ => none
    | _, _ => none
  | _ => none

/-- Clamp a sample to `[-1, 1]` (spec §4.1). -/
def clampSample (x : ℚ) : ℚ := max (-1) (min 1 x)

/-- Modelled from the spec: the per-sample step of `encodeFrame`
(`createBlob` of the absent `src/utils/audioUtils.ts`): clamp to
`[-1, 1]` and scale to the 16-bit signed integer range, here by rounding
`x * 32767` to the nearest integer. -/
def encodeSample (x : ℚ) : ℤ := round (clampSample x * 32767)

/-- The two little-endian bytes of a 16-bit signed integer. -/
def int16ToLEBytes (i : ℤ) : List ℕ :=
  [((i % 65536).toNat) % 256, ((i % 65536).toNat) / 256]

/-- Reinterpret two little-endian bytes as a 16-bit signed integer. -/
def leBytesToInt16 (b0 b1 : ℕ) : ℤ :=
  let v : ℤ := (b0 : ℤ) + 256 * (b1 : ℤ)
  if v < 32768 then v else v - 65536

/-- Reinterpret a byte sequence as 16-bit little-endian signed samples
(a trailing odd byte is ignored). -/
def bytesToInt16s : List ℕ → List ℤ
  | b0 :: b1 :: rest => leBytesToInt16 b0 b1 :: bytesToInt16s rest
  | _ => []

/-- An encoded audio blob: base64 text plus sample-rate metadata. -/
structure EncodedBlob where
  data : List Char
  mimeType : String
deriving DecidableEq, Repr

/-- Modelled from the spec: `encodeFrame` (`createBlob` of the absent
`src/utils/audioUtils.ts`) — clamp each sample to `[-1, 1]`, scale to
the 16-bit signed range, pack little-endian, base64-encode, and tag with
the capture sample rate. -/
def encodeFrame (samples : List ℚ) : EncodedBlob :=
  { data := base64Encode ((samples.map (fun x => int16ToLEBytes (encodeSample x))).flatten)
    mimeType := "audio/pcm;rate=16000" }

/-- Modelled from the spec: `decodeFrame` (`decode` of the absent
`src/utils/audioUtils.ts`) — the inverse of the base64 step only;
fails (`none`) on malformed base64. -/
def decodeFrame (data : List Char) : Option (List ℕ) := base64Decode data

/-- Modelled from the spec: `decodeAudioData` of the absent
`src/utils/audioUtils.ts` — reinterpret raw bytes as 16-bit samples and
rescale to `[-1, 1]`; zero-length input yields the empty buffer. -/
def decodeAudioData (bytes : List ℕ) : List ℚ :=
  (bytesToInt16s bytes).map (fun (i : ℤ) => (i : ℚ) / 32767)

example : base64Encode [0, 0] = ['A', 'A', 'A', '='] := by decide
example : base64Decode ['A', 'A', 'A', '='] = some [0, 0] := by decide
example : base64Decode ['!'] = none := by decide
example : base64Decode (base64Encode [77, 3, 255, 0, 1]) = some [77, 3, 255, 0, 1] := by decide
example : decodeAudioData [0, 0] = [0] := by
  norm_num [decodeAudioData, bytesToInt16s, leBytesToInt16]
example : encodeSample (1 / 2) = 16384 := by
  norm_num [encodeSample, clampSample, round_eq]

theorem b64Alphabet_length : b64Alphabet.length = 64 := by decide

theorem b64Val_b64Char : ∀ n, n < 64 → b64Val (b64Char n) = some n := by decide

/-- No base64 digit is the padding character. -/
theorem b64Char_ne_pad (n : ℕ) : b64Char n ≠ '=' := by
  by_cases h : n < 64
  · exact (by decide : ∀ m, m < 64 → b64Char m ≠ '=') n h
  · have h2 : b64Char n = 'A' := by
      unfold b64Char
      apply List.getD_eq_default
      rw [b64Alphabet_length]
      omega
    rw [h2]; decide

/-- Decoding one full encoded 3-byte group recovers the three bytes and
continues with the rest of the text. -/
theorem base64Decode_chunk (a b c : ℕ) (ha : a < 256) (hb : b < 256) (hc : c < 256)
    (rest : List Char) (tail : List ℕ) (hrest : base64Decode rest = some tail) :
    base64Decode (base64EncodeChunk a b c ++ rest) = some (a :: b :: c :: tail) := by
  have h1 : a / 4 < 64 := by omega
  have h2 : a % 4 * 16 + b / 16 < 64 := by omega
  have h3 : b % 16 * 4 + c / 64 < 64 := by omega
  have h4 : c % 64 < 64 := by omega
  simp only [base64EncodeChunk, List.cons_append, List.nil_append, List.append_eq,
    base64Decode, b64Val_b64Char _ h1, b64Val_b64Char _ h2, b64Val_b64Char _ h3,
    b64Val_b64Char _ h4]
  rw [if_neg (fun hand => b64Char_ne_pad _ hand.1),
    if_neg (fun hand => b64Char_ne_pad _ hand.1), hrest]
  dsimp only
  congr 1
  have e1 : a / 4 * 4 + (a % 4 * 16 + b / 16) / 16 = a := by omega
  have e2 : (a % 4 * 16 + b / 16) % 16 * 16 + (b % 16 * 4 + c / 64) / 4 = b := by omega
  have e3 : (b % 16 * 4 + c / 64) % 4 * 64 + c % 64 = c := by omega
  rw [e1, e2, e3]

/-- base64 decoding is a left inverse of base64 encoding on byte
sequences. -/
theorem base64_roundTrip (bs : List ℕ) (hb : ∀ x ∈ bs, x < 256) :
    base64Decode (base64Encode bs) = some bs := by
  induction bs using base64Encode.induct with
  | case1 => rfl
  | case2 a =>
    have ha : a < 256 := hb a (by simp)
    have h1 : a / 4 < 64 := by omega
    have h2 : a % 4 * 16 < 64 := by omega
    simp only [base64Encode, base64Decode, b64Val_b64Char _ h1, b64Val_b64Char _ h2]
    rw [if_pos (by simp)]
    congr 1
    have e1 : a / 4 * 4 + a % 4 * 16 / 16 = a := by omega
    rw [e1]
  | case3 a b =>
    have ha : a < 256 := hb a (by simp)
    have hbb : b < 256 := hb b (by simp)
    have h1 : a / 4 < 64 := by omega
    have h2 : a % 4 * 16 + b / 16 < 64 := by omega
    have h3 : b % 16 * 4 < 64 := by omega
    simp only [base64Encode, base64Decode, b64Val_b64Char _ h1, b64Val_b64Char _ h2,
      b64Val_b64Char _ h3]
    rw [if_neg (fun hand => b64Char_ne_pad _ hand.1), if_pos (by simp)]
    congr 1
    have e1 : a / 4 * 4 + (a % 4 * 16 + b / 16) / 16 = a := by omega
    have e2 : (a % 4 * 16 + b / 16) % 16 * 16 + b % 16 * 4 / 4 = b := by omega
    rw [e1, e2]
  | case4 a b c rest ih =>
    have hrest : ∀ x ∈ rest, x < 256 := fun x hx => hb x (by simp [hx])
    rw [base64Encode, base64Decode_chunk a b c (hb a (by simp)) (hb b (by simp))
      (hb c (by simp)) _ _ (ih hrest)]

/-- Both little-endian bytes of an integer are bytes. -/
theorem int16ToLEBytes_lt (i : ℤ) : ∀ x ∈ int16ToLEBytes i, x < 256 := by
  intro x hx
  have h1 : 0 ≤ i % 65536 := Int.emod_nonneg i (by norm_num)
  have h2 : i % 65536 < 65536 := Int.emod_lt_of_pos i (by norm_num)
  simp only [int16ToLEBytes, List.mem_cons, List.mem_singleton] at hx
  rcases hx with h | h | h
  · omega
  · omega
  · simp at h

/-- Unpacking the two little-endian bytes of a 16-bit signed integer
recovers it. -/
theorem leBytesToInt16_pack (i : ℤ) (h1 : -32768 ≤ i) (h2 : i < 32768) :
    leBytesToInt16 ((i % 65536).toNat % 256) ((i % 65536).toNat / 256) = i := by
  simp only [leBytesToInt16]
  split_ifs with hlt
  · omega
  · omega

/-- Byte packing round-trips on lists of 16-bit signed integers. -/
theorem bytesToInt16s_roundTrip (is : List ℤ)
    (h : ∀ i ∈ is, -32768 ≤ i ∧ i < 32768) :
    bytesToInt16s ((is.map int16ToLEBytes).flatten) = is := by
  induction is with
  | nil => rfl
  | cons i rest ih =>
    have hi := h i (by simp)
    simp only [List.map_cons, List.flatten_cons, int16ToLEBytes, List.cons_append,
      List.nil_append]
    rw [bytesToInt16s, leBytesToInt16_pack i hi.1 hi.2,
      show ((rest.map int16ToLEBytes).flatten) = _ from rfl,
      ih (fun j hj => h j (by simp [hj]))]

/-- The clamped sample always lies in `[-1, 1]`. -/
theorem clampSample_mem (x : ℚ) : -1 ≤ clampSample x ∧ clampSample x ≤ 1 := by
  unfold clampSample
  exact ⟨le_max_left _ _, max_le (by norm_num) (min_le_left _ _)⟩

/-- The encoded sample always fits the 16-bit signed range. -/
theorem encodeSample_bounds (x : ℚ) : -32768 ≤ encodeSample x ∧ encodeSample x < 32768 := by
  obtain ⟨hc1, hc2⟩ := clampSample_mem x
  have hy1 : -(32767 : ℚ) ≤ clampSample x * 32767 := by nlinarith
  have hy2 : clampSample x * 32767 ≤ 32767 := by nlinarith
  have hr := abs_sub_round (clampSample x * 32767)
  rw [abs_le] at hr
  unfold encodeSample
  have hq1 : -(32768 : ℚ) ≤ (round (clampSample x * 32767) : ℚ) := by linarith [hr.1, hr.2]
  have hq2 : (round (clampSample x * 32767) : ℚ) < 32768 := by linarith [hr.1, hr.2]
  constructor
  · exact_mod_cast hq1
  · exact_mod_cast hq2

/-- Quantizing one in-range sample and rescaling reproduces it within
the 16-bit quantization error `1 / 32767`. -/
theorem decodedSample_close (x : ℚ) (h : |x| ≤ 1) :
    |(encodeSample x : ℚ) / 32767 - x| ≤ 1 / 32767 := by
  rw [abs_le] at h
  have hcl : clampSample x = x := by
    unfold clampSample
    rw [min_eq_right h.2, max_eq_right h.1]
  unfold encodeSample
  rw [hcl]
  have e : (round (x * 32767) : ℚ) / 32767 - x = ((round (x * 32767) : ℚ) - x * 32767) / 32767 := by
    ring
  rw [e, abs_div, show |(32767 : ℚ)| = 32767 from by norm_num,
    div_le_div_iff₀ (by norm_num) (by norm_num)]
  have hr : |(round (x * 32767) : ℚ) - x * 32767| ≤ 1 / 2 := by
    rw [abs_sub_comm]
    exact abs_sub_round _
  nlinarith [hr]

/-- Pointwise closeness of the quantized-and-rescaled samples. -/
theorem decoded_map_forall₂ : ∀ l : List ℚ, (∀ x ∈ l, |x| ≤ 1) →
    List.Forall₂ (fun r x => |r - x| ≤ 1 / 32767)
      (l.map (fun x => (encodeSample x : ℚ) / 32767)) l := by
  intro l
  induction l with
  | nil => exact fun _ => List.Forall₂.nil
  | cons a t iht =>
    intro hl
    rw [List.map_cons]
    exact List.Forall₂.cons (decodedSample_close a (hl a (by simp)))
      (iht (fun x hx => hl x (by simp [hx])))

/-- **C4** — Round-trip of the PCM codec: on any sample sequence with
values in `[-1, 1]`, the base64 decode of the encoded frame succeeds,
and reinterpreting the resulting bytes as rescaled 16-bit samples
reconstructs the original sequence pointwise within the 16-bit
quantization error `1 / 32767`. -/
theorem encodeFrame_decodeFrame_roundTrip (samples : List ℚ)
    (h : ∀ x ∈ samples, |x| ≤ 1) :
    ∃ bytes, decodeFrame (encodeFrame samples).data = some bytes ∧
      (decodeAudioData bytes).length = samples.length ∧
      List.Forall₂ (fun r x => |r - x| ≤ 1 / 32767) (decodeAudioData bytes) samples := by
  have key : decodeAudioData ((samples.map (fun x => int16ToLEBytes (encodeSample x))).flatten)
      = samples.map (fun x => (encodeSample x : ℚ) / 32767) := by
    unfold decodeAudioData
    have hmm : samples.map (fun x => int16ToLEBytes (encodeSample x))
        = (samples.map encodeSample).map int16ToLEBytes := by
      rw [List.map_map]; rfl
    rw [hmm, bytesToInt16s_roundTrip ((samples.map encodeSample))
      (fun i hi => by
        rw [List.mem_map] at hi
        obtain ⟨y, _, rfl⟩ := hi
        exact encodeSample_bounds y), List.map_map]
    rfl
  refine ⟨(samples.map (fun x => int16ToLEBytes (encodeSample x))).flatten, ?_, ?_, ?_⟩
  · unfold decodeFrame encodeFrame
    apply base64_roundTrip
    intro x hx
    rw [List.mem_flatten] at hx
    obtain ⟨l, hl, hxl⟩ := hx
    rw [List.mem_map] at hl
    obtain ⟨y, _, rfl⟩ := hl
    exact int16ToLEBytes_lt _ x hxl
  · rw [key, List.length_map]
  · rw [key]
    exact decoded_map_forall₂ samples h

/-!
## Input capture pipeline (`onaudioprocess` in `src/App.tsx`)
-/

/-- The running sum of squared samples computed by the volume-meter loop
of `onaudioprocess`. -/
def sumSquares (samples : List ℚ) : ℚ := (samples.map (fun x => x * x)).sum

/-- The volume estimate published per captured frame:
`Math.sqrt(sum / inputData.length) * 5` in `onaudioprocess`
(root-mean-square amplitude, amplified by 5 for the visualizer). -/
noncomputable def frameVolume (samples : List ℚ) : ℝ :=
  Real.sqrt ((sumSquares samples / (samples.length : ℚ) : ℚ) : ℝ) * 5

/-- The `onaudioprocess` handler: publish the frame's volume estimate,
encode the frame, and send the encoded blob to the session if a session
promise exists (the returned `Option` is the blob handed to
`session.sendRealtimeInput`, `none` when nothing is sent).  The handler
never consults the mute flag. -/
noncomputable def onaudioprocess (frame : List ℚ) (s : AppState) :
    AppState × Option EncodedBlob :=
  let s1 := { s with volume := frameVolume frame }
  let pcmBlob := encodeFrame frame
  match s1.sessionPromise with
  | some _ => (s1, some pcmBlob)
  | none => (s1, none)

/-!
## Session callbacks and playback scheduler (`src/App.tsx`)
-/

/-- The fields of a `LiveServerMessage` the `onmessage` handler reads:
the optional base64 audio payload
(`serverContent.modelTurn.parts[0].inlineData.data`), and the
`turnComplete` and `interrupted` flags. -/
structure ServerMessage where
  audioData : Option (List Char)
  turnComplete : Bool
  interrupted : Bool

/-- The `onopen` callback: log, become `CONNECTED`, initialize the
playback cursor to the output clock's current time, and create the
capture source and processor nodes. -/
def onopen (clock : ℚ) (s : AppState) : AppState :=
  let s1 := addLog .system "Connected! Start speaking to CodeCompanion." s
  { s1 with
    connectionState := .CONNECTED
    nextStartTime := clock
    sourceNode := some ()
    processor := some () }

/-- The `onmessage` callback, with the output clock's current time as an
explicit parameter.  For an audio payload: advance the cursor to
`max(cursor, outputCtx.currentTime)`, then decode; on decode failure the
error is written to the console only (`consoleErrors` grows) and the
frame is dropped; on success a playback unit starting at the cursor is
created and the cursor advances by the buffer's duration
(`sampleCount / 24000` seconds).  A `turnComplete` flag is a no-op.  An
`interrupted` flag logs, force-stops and clears all active units, and
resets the cursor to the output clock's current time. -/
def onmessage (clock : ℚ) (msg : ServerMessage) (s : AppState) : AppState :=
  let s1 :=
    match msg.audioData with
    | none => s
    | some b64 =>
      let s2 := { s with nextStartTime := max s.nextStartTime clock }
      match decodeFrame b64 with
      | none => { s2 with consoleErrors := s2.consoleErrors + 1 }
      | some bytes =>
        let audioBuffer := decodeAudioData bytes
        let dur : ℚ := (audioBuffer.length : ℚ) / 24000
        { s2 with
          nextStartTime := s2.nextStartTime + dur
          audioSources := ⟨s2.nextStartTime, dur⟩ :: s2.audioSources }
  if msg.interrupted then
    let s3 := addLog .system "User interrupted AI." s1
    { s3 with audioSources := [], nextStartTime := clock }
  else s1

/-- The `ended` listener of a playback unit: remove it from the active
set and reset the "AI speaking" volume indicator. -/
def onended (u : SchedUnit) (s : AppState) : AppState :=
  { s with audioSources := s.audioSources.erase u, aiVolume := 0 }

/-- Fold a sequence of `onmessage` events (each with its clock reading)
over a state. -/
def runMessages : List (ℚ × ServerMessage) → AppState → AppState
  | [], s => s
  | (c, m) :: rest, s => runMessages rest (onmessage c m s)

/-!
## Lifecycle: connect, disconnect, mute (`src/App.tsx`)
-/

/-- The environment of one `connectToGemini` call: for each step inside
the `try` block that can throw, the error message if it throws
(`none` = the step succeeds).  Steps appear in program order: audio
context construction (input then output), `getUserMedia`, the
`GoogleGenAI` client constructor, and `ai.live.connect`. -/
structure ConnectEnv where
  inputCtxErr : Option String
  outputCtxErr : Option String
  micErr : Option String
  clientErr : Option String
  sessionErr : Option String

/-- The `catch` block of `connectToGemini`: `console.error`, log the
failure, set state `ERROR`, release resources. -/
def connectFail (m : String) (s : AppState) : AppState :=
  let s1 := addLog .system ("Failed to connect: " ++ m) s
  cleanupAudio { s1 with
    connectionState := .ERROR
    consoleErrors := s1.consoleErrors + 1 }

/-- `connectToGemini` in `src/App.tsx` as a function of its environment:
the `try` block runs step by step, and the first step whose environment
entry carries an error diverts to the `catch` block (`connectFail`). -/
def connectToGemini (env : ConnectEnv) (s : AppState) : AppState :=
  let s0 := addLog .system "Initializing audio contexts..."
    { s with connectionState := .CONNECTING }
  match env.inputCtxErr with
  | some m => connectFail m s0
  | none =>
  let s1 := { s0 with inputCtx := some () }
  match env.outputCtxErr with
  | some m => connectFail m s1
  | none =>
  let s2 := { s1 with outputCtx := some () }
  let s3 := addLog .system "Requesting microphone access..." s2
  match env.micErr with
  | some m => connectFail m s3
  | none =>
  let s4 := { s3 with mediaStream := some [⟨true⟩] }
  match env.clientErr with
  | some m => connectFail m s4
  | none =>
  let s5 := addLog .system "Connecting to Gemini Live API..." s4
  match env.sessionErr with
  | some m => connectFail m s5
  | none =>
  { s5 with sessionPromise := some () }

/-- `handleDisconnect` in `src/App.tsx`: a no-op when no session promise
exists; otherwise log, await the session (without invoking any close
operation on it), release resources, force the state to `DISCONNECTED`,
and null the session promise. -/
def handleDisconnect (s : AppState) : AppState :=
  match s.sessionPromise with
  | none => s
  | some _ =>
    let s1 := addLog .system "Disconnecting..." s
    let s2 := cleanupAudio s1
    { s2 with
      connectionState := .DISCONNECTED
      sessionPromise := none }

/-- `toggleMic` in `src/App.tsx`: if a media stream with an audio track
exists, flip the track's `enabled` flag, mirror it into `isMicOn`, and
log; otherwise do nothing. -/
def toggleMic (s : AppState) : AppState :=
  match s.mediaStream with
  | none => s
  | some [] => s
  | some (t :: rest) =>
    let t1 : MediaTrack := ⟨!t.enabled⟩
    let s1 := { s with mediaStream := some (t1 :: rest), isMicOn := t1.enabled }
    addLog .system (if t1.enabled then "Microphone unmuted." else "Microphone muted.") s1

/-- The initial component state: `DISCONNECTED`, empty log, mic-on flag
set, zero volumes, all refs null, cursor at `0`, no active units. -/
def initState : AppState :=
  { connectionState := .DISCONNECTED
    logs := []
    isMicOn := true
    volume := 0
    aiVolume := 0
    inputCtx := none
    outputCtx := none
    mediaStream := none
    processor := none
    sourceNode := none
    sessionPromise := none
    nextStartTime := 0
    audioSources := []
    remoteClosed := false
    consoleErrors := 0 }

/-!
## Playback scheduler properties (claims C1–C3)
-/

/-- Shape of an `onmessage` step on a message with no audio payload and
no interruption flag. -/
theorem onmessage_no_audio (c : ℚ) (m : ServerMessage) (s : AppState)
    (ha : m.audioData = none) (hi : m.interrupted = false) :
    onmessage c m s = s := by
  unfold onmessage
  rw [ha, hi]
  simp

/-- Shape of an `onmessage` step on an audio payload that fails to
decode (no interruption flag): only the cursor max-update and the
console error happen. -/
theorem onmessage_audio_fail (c : ℚ) (m : ServerMessage) (p : List Char) (s : AppState)
    (ha : m.audioData = some p) (hi : m.interrupted = false)
    (hd : decodeFrame p = none) :
    onmessage c m s =
      { s with
        nextStartTime := max s.nextStartTime c
        consoleErrors := s.consoleErrors + 1 } := by
  unfold onmessage
  rw [ha, hi]
  dsimp only
  rw [hd]
  simp

/-- Shape of an `onmessage` step on an audio payload that decodes (no
interruption flag): one playback unit is scheduled at
`max(cursor, clock)` and the cursor advances past it by the buffer's
duration. -/
theorem onmessage_audio_step (c : ℚ) (m : ServerMessage) (p : List Char) (b : List ℕ)
    (s : AppState) (ha : m.audioData = some p) (hi : m.interrupted = false)
    (hd : decodeFrame p = some b) :
    onmessage c m s =
      { s with
        nextStartTime := max s.nextStartTime c + ((decodeAudioData b).length : ℚ) / 24000
        audioSources :=
          ⟨max s.nextStartTime c, ((decodeAudioData b).length : ℚ) / 24000⟩ ::
            s.audioSources } := by
  unfold onmessage
  rw [ha, hi]
  dsimp only
  rw [hd]
  simp

/-- **C2** — Interruption clears playback state: for every message
carrying the interruption flag, immediately after `onmessage` handles it
the active playback set is empty and the playback cursor equals the
output clock's current time, regardless of how many units were scheduled
or playing beforehand. -/
theorem interruption_clears_state (clock : ℚ) (msg : ServerMessage) (s : AppState)
    (h : msg.interrupted = true) :
    (onmessage clock msg s).audioSources = [] ∧
    (onmessage clock msg s).nextStartTime = clock := by
  unfold onmessage
  rw [h]
  simp

/-- Witness for C2 at a concrete interruption message and state. -/
theorem interruption_clears_state_witness :
    (⟨none, false, true⟩ : ServerMessage).interrupted = true ∧
    ((onmessage 3 ⟨none, false, true⟩ initState).audioSources = [] ∧
     (onmessage 3 ⟨none, false, true⟩ initState).nextStartTime = 3) :=
  ⟨rfl, interruption_clears_state 3 ⟨none, false, true⟩ initState rfl⟩

/-- A buffer duration is never negative. -/
theorem bufferDur_nonneg (b : List ℕ) : (0 : ℚ) ≤ ((decodeAudioData b).length : ℚ) / 24000 := by
  positivity

/-- One non-interruption `onmessage` step never decreases the cursor. -/
theorem onmessage_cursor_mono (clock : ℚ) (msg : ServerMessage) (s : AppState)
    (hi : msg.interrupted = false) :
    s.nextStartTime ≤ (onmessage clock msg s).nextStartTime := by
  rcases ha : msg.audioData with _ | p
  · rw [onmessage_no_audio clock msg s ha hi]
  · rcases hd : decodeFrame p with _ | b
    · rw [onmessage_audio_fail clock msg p s ha hi hd]
      exact le_max_left _ _
    · rw [onmessage_audio_step clock msg p b s ha hi hd]
      calc s.nextStartTime ≤ max s.nextStartTime clock := le_max_left _ _
        _ ≤ max s.nextStartTime clock + ((decodeAudioData b).length : ℚ) / 24000 :=
          le_add_of_nonneg_right (bufferDur_nonneg b)

/-- **C3** — Cursor invariants.  First: across any sequence of messages
none of which carries an interruption flag, the playback cursor is
non-decreasing (so it can only decrease immediately after an
interruption event).  Second: after any step that reads the output
clock (an audio arrival or an interruption), the cursor is at least the
clock time that was read. -/
theorem cursor_monotone_and_ge_clock :
    (∀ (msgs : List (ℚ × ServerMessage)) (s : AppState),
      (∀ cm ∈ msgs, cm.2.interrupted = false) →
      s.nextStartTime ≤ (runMessages msgs s).nextStartTime) ∧
    (∀ (clock : ℚ) (msg : ServerMessage) (s : AppState),
      msg.audioData.isSome = true ∨ msg.interrupted = true →
      clock ≤ (onmessage clock msg s).nextStartTime) := by
  constructor
  · intro msgs
    induction msgs with
    | nil => intro s _; exact le_refl _
    | cons cm rest ih =>
      intro s h
      rcases cm with ⟨c, m⟩
      calc s.nextStartTime
          ≤ (onmessage c m s).nextStartTime :=
            onmessage_cursor_mono c m s (h (c, m) (by simp))
        _ ≤ (runMessages rest (onmessage c m s)).nextStartTime :=
            ih _ (fun x hx => h x (by simp [hx]))
  · intro clock msg s h
    rcases hi : msg.interrupted with _ | _
    · rcases ha : msg.audioData with _ | p
      · rw [ha] at h
        rcases h with h | h
        · simp at h
        · rw [hi] at h
          simp at h
      · rcases hd : decodeFrame p with _ | b
        · rw [onmessage_audio_fail clock msg p s ha hi hd]
          exact le_max_right _ _
        · rw [onmessage_audio_step clock msg p b s ha hi hd]
          calc clock ≤ max s.nextStartTime clock := le_max_right _ _
            _ ≤ max s.nextStartTime clock + ((decodeAudioData b).length : ℚ) / 24000 :=
              le_add_of_nonneg_right (bufferDur_nonneg b)
    · exact le_of_eq (interruption_clears_state clock msg s hi).2.symm

/-- Witness for C3 at a concrete message sequence and clock reading. -/
theorem cursor_monotone_and_ge_clock_witness :
    initState.nextStartTime ≤
      (runMessages [(2, ⟨none, true, false⟩)] initState).nextStartTime ∧
    (7 : ℚ) ≤ (onmessage 7 ⟨none, false, true⟩ initState).nextStartTime :=
  ⟨cursor_monotone_and_ge_clock.1 [(2, ⟨none, true, false⟩)] initState
      (by intro cm hcm; simp at hcm; rw [hcm]),
    cursor_monotone_and_ge_clock.2 7 ⟨none, false, true⟩ initState (Or.inr rfl)⟩

/-- **C1** is refuted as stated: with the cursor at `t = 0`, a first
buffer of duration `d1 = 1/24000` arriving at clock `0` and a second
buffer arriving after the output clock has advanced to `5`, the second
buffer's scheduled start is `5` (the clock time), not `t + d1`: the
claim omits the `max` with the output clock that its own first half
describes. -/
theorem scheduler_gapless_counterexample :
    (onmessage 5 ⟨some ['A', 'A', 'A', '='], false, false⟩
        (onmessage 0 ⟨some ['A', 'A', 'A', '='], false, false⟩ initState)).audioSources
      = [⟨5, 1 / 24000⟩, ⟨0, 1 / 24000⟩] ∧
    (5 : ℚ) ≠ 0 + 1 / 24000 := by
  have hdec : decodeFrame ['A', 'A', 'A', '='] = some [0, 0] := by decide
  have hlen : ((decodeAudioData [0, 0]).length : ℚ) = 1 := by
    norm_num [decodeAudioData, bytesToInt16s, leBytesToInt16]
  rw [onmessage_audio_step 0 _ _ _ _ rfl rfl hdec,
    onmessage_audio_step 5 _ _ _ _ rfl rfl hdec]
  rw [hlen]
  constructor
  · have h1 : max initState.nextStartTime (0 : ℚ) = 0 := by
      norm_num [initState]
    rw [h1]
    have h2 : max ((0 : ℚ) + 1 / 24000) 5 = 5 := by
      rw [max_eq_right]
      norm_num
    norm_num [initState, h2]
  · norm_num

/-- **C1** (amended) — Arrival mechanism and gaplessness.  First: every
decoded buffer is scheduled to start exactly at
`max(cursor, outputClockNow)`, the cursor then advances by the buffer's
duration, and the unit is added to the active set.  Second: for two
buffers of durations `d1`, `d2` arriving in order while the cursor is
`t`, with no interruption between them **and with the output clock at
or below the cursor at each arrival** (decoding keeps pace with
playback), the second buffer's scheduled start equals `t + d1`. -/
theorem scheduler_gapless :
    (∀ (c : ℚ) (m : ServerMessage) (p : List Char) (b : List ℕ) (s : AppState),
      m.audioData = some p → m.interrupted = false → decodeFrame p = some b →
      (onmessage c m s).audioSources
        = ⟨max s.nextStartTime c, ((decodeAudioData b).length : ℚ) / 24000⟩ ::
            s.audioSources ∧
      (onmessage c m s).nextStartTime
        = max s.nextStartTime c + ((decodeAudioData b).length : ℚ) / 24000) ∧
    (∀ (c1 c2 : ℚ) (m1 m2 : ServerMessage) (p1 p2 : List Char) (b1 b2 : List ℕ)
      (s : AppState),
      m1.audioData = some p1 → m1.interrupted = false → decodeFrame p1 = some b1 →
      m2.audioData = some p2 → m2.interrupted = false → decodeFrame p2 = some b2 →
      c1 ≤ s.nextStartTime →
      c2 ≤ s.nextStartTime + ((decodeAudioData b1).length : ℚ) / 24000 →
      (onmessage c2 m2 (onmessage c1 m1 s)).audioSources
        = ⟨s.nextStartTime + ((decodeAudioData b1).length : ℚ) / 24000,
            ((decodeAudioData b2).length : ℚ) / 24000⟩ ::
          ⟨s.nextStartTime, ((decodeAudioData b1).length : ℚ) / 24000⟩ ::
            s.audioSources) := by
  constructor
  · intro c m p b s ha hi hd
    rw [onmessage_audio_step c m p b s ha hi hd]
    exact ⟨rfl, rfl⟩
  · intro c1 c2 m1 m2 p1 p2 b1 b2 s ha1 hi1 hd1 ha2 hi2 hd2 hc1 hc2
    rw [onmessage_audio_step c1 m1 p1 b1 s ha1 hi1 hd1,
      onmessage_audio_step c2 m2 p2 b2 _ ha2 hi2 hd2]
    dsimp only
    rw [max_eq_left hc1, max_eq_left hc2]

/-- Witness for the amended C1 at two concrete back-to-back arrivals. -/
theorem scheduler_gapless_witness :
    (onmessage 0 ⟨some ['A', 'A', 'A', '='], false, false⟩
        (onmessage 0 ⟨some ['A', 'A', 'A', '='], false, false⟩ initState)).audioSources
      = ⟨initState.nextStartTime + ((decodeAudioData [0, 0]).length : ℚ) / 24000,
          ((decodeAudioData [0, 0]).length : ℚ) / 24000⟩ ::
        ⟨initState.nextStartTime, ((decodeAudioData [0, 0]).length : ℚ) / 24000⟩ ::
          initState.audioSources :=
  scheduler_gapless.2 0 0 ⟨some ['A', 'A', 'A', '='], false, false⟩
    ⟨some ['A', 'A', 'A', '='], false, false⟩ ['A', 'A', 'A', '='] ['A', 'A', 'A', '=']
    [0, 0] [0, 0] initState rfl rfl (by decide) rfl rfl (by decide)
    (by norm_num [initState])
    (by
      have : ((decodeAudioData [0, 0]).length : ℚ) = 1 := by
        norm_num [decodeAudioData, bytesToInt16s, leBytesToInt16]
      rw [this]
      norm_num [initState])

/-!
## Resource release and lifecycle (claims C5, C9, C10)
-/

/-- All audio resource handles are stopped/cleared and nulled, and both
volume indicators are zero. -/
def resourcesReleased (s : AppState) : Prop :=
  s.audioSources = [] ∧ s.processor = none ∧ s.sourceNode = none ∧
  s.mediaStream = none ∧ s.inputCtx = none ∧ s.outputCtx = none ∧
  s.volume = 0 ∧ s.aiVolume = 0

/-- **C5** — Resource release is idempotent and total: from any state,
calling `cleanupAudio` twice yields exactly the state of calling it
once (and, being a total function, it throws nothing), and after it
runs both volume indicators are zero and every audio resource handle
(active playback units, processor node, source node, microphone
stream, both audio contexts) is cleared and nulled. -/
theorem cleanupAudio_idempotent_total (s : AppState) :
    cleanupAudio (cleanupAudio s) = cleanupAudio s ∧
    resourcesReleased (cleanupAudio s) := by
  cases s
  exact ⟨rfl, rfl, rfl, rfl, rfl, rfl, rfl, rfl, rfl⟩

/-- **C10** — `handleDisconnect` releases only local resources: with no
session promise it is a complete no-op (no state change, no log, no
cleanup); with a session promise it logs, runs `cleanupAudio`, forces
`DISCONNECTED`, and nulls the local session handle — and in either case
it never invokes any close/terminate operation on the remote session
object (the `remoteClosed` ghost flag is unchanged). -/
theorem handleDisconnect_spec (s : AppState) :
    (s.sessionPromise = none → handleDisconnect s = s) ∧
    (s.sessionPromise = some () →
      handleDisconnect s =
        { cleanupAudio (addLog .system "Disconnecting..." s) with
          connectionState := .DISCONNECTED
          sessionPromise := none } ∧
      (handleDisconnect s).connectionState = .DISCONNECTED ∧
      (handleDisconnect s).sessionPromise = none ∧
      (handleDisconnect s).remoteClosed = s.remoteClosed) ∧
    (handleDisconnect s).remoteClosed = s.remoteClosed := by
  refine ⟨?_, ?_, ?_⟩
  · intro h
    unfold handleDisconnect
    rw [h]
  · intro h
    unfold handleDisconnect
    rw [h]
    exact ⟨rfl, rfl, rfl, rfl⟩
  · unfold handleDisconnect
    rcases h : s.sessionPromise with _ | u
    · rfl
    · rfl

/-- Witness for C10 at concrete states with and without a session. -/
theorem handleDisconnect_spec_witness :
    handleDisconnect initState = initState ∧
    (handleDisconnect { initState with sessionPromise := some () }).connectionState
      = .DISCONNECTED :=
  ⟨(handleDisconnect_spec initState).1 rfl,
    (((handleDisconnect_spec { initState with sessionPromise := some () }).2.1 rfl)).2.1⟩

/-- **C9** — Mute toggling while `CONNECTED` flips only the microphone
track's enable flag and the mic-on indicator and appends one log entry;
every other piece of session, playback and connection state is
unchanged, and frame processing is unaffected: after the toggle a
captured frame still updates the volume meter to the frame's RMS
estimate and is still encoded and sent to the session exactly as
before. -/
theorem toggleMic_spec (s : AppState) (t : MediaTrack) (rest : List MediaTrack)
    (hs : s.mediaStream = some (t :: rest))
    (_hconn : s.connectionState = .CONNECTED) :
    toggleMic s =
      { s with
        mediaStream := some (⟨!t.enabled⟩ :: rest)
        isMicOn := !t.enabled
        logs := s.logs ++
          [⟨.system, if !t.enabled then "Microphone unmuted." else "Microphone muted."⟩] } ∧
    (toggleMic s).connectionState = s.connectionState ∧
    (toggleMic s).sessionPromise = s.sessionPromise ∧
    (toggleMic s).nextStartTime = s.nextStartTime ∧
    (toggleMic s).audioSources = s.audioSources ∧
    (toggleMic s).volume = s.volume ∧
    (toggleMic s).aiVolume = s.aiVolume ∧
    (toggleMic s).processor = s.processor ∧
    (toggleMic s).sourceNode = s.sourceNode ∧
    (toggleMic s).inputCtx = s.inputCtx ∧
    (toggleMic s).outputCtx = s.outputCtx ∧
    (toggleMic s).remoteClosed = s.remoteClosed ∧
    (∀ frame : List ℚ,
      (onaudioprocess frame (toggleMic s)).2 = (onaudioprocess frame s).2 ∧
      ((onaudioprocess frame (toggleMic s)).1).volume = frameVolume frame ∧
      ((onaudioprocess frame s).1).volume = frameVolume frame) := by
  rcases s with ⟨cs, lg, mic, vol, aiv, ic, oc, ms, pr, sn, sp, nst, srcs, rc, ce⟩
  dsimp only at hs
  subst hs
  refine ⟨rfl, rfl, rfl, rfl, rfl, rfl, rfl, rfl, rfl, rfl, rfl, rfl, ?_⟩
  intro frame
  rcases sp with _ | u
  · exact ⟨rfl, rfl, rfl⟩
  · exact ⟨rfl, rfl, rfl⟩

/-- Witness for C9 at a concrete connected state with one enabled
track. -/
theorem toggleMic_spec_witness :
    toggleMic { initState with
        connectionState := .CONNECTED
        mediaStream := some [⟨true⟩] } =
      { { initState with
          connectionState := .CONNECTED
          mediaStream := some [⟨true⟩] } with
        mediaStream := some (⟨!true⟩ :: ([] : List MediaTrack))
        isMicOn := !true
        logs := ({ initState with
            connectionState := .CONNECTED
            mediaStream := some [⟨true⟩] } : AppState).logs ++
          [⟨.system, if !true then "Microphone unmuted." else "Microphone muted."⟩] } :=
  (toggleMic_spec { initState with
      connectionState := .CONNECTED
      mediaStream := some [⟨true⟩] } ⟨true⟩ [] rfl rfl).1

/-!
## Error handling of inbound audio (claim C7) and the volume meter (claim C8)
-/

/-- **C7** is refuted as stated: a message whose audio payload fails to
decode but which *also* carries the interruption flag does append an
entry to the user-visible log (`"User interrupted AI."`), so "no entry
is appended to the user-visible log" does not hold for every message
with an undecodable payload. -/
theorem decode_failure_counterexample :
    (onmessage 0 ⟨some ['!'], false, true⟩ initState).logs
      = [⟨.system, "User interrupted AI."⟩] ∧
    (onmessage 0 ⟨some ['!'], false, true⟩ initState).logs ≠ initState.logs := by
  have h : (onmessage 0 ⟨some ['!'], false, true⟩ initState).logs
      = [⟨.system, "User interrupted AI."⟩] := rfl
  refine ⟨h, ?_⟩
  rw [h]
  simp [initState]

/-- **C7** (amended) — For every inbound message whose audio payload
fails to decode and which does not also carry an interruption flag, the
failure is confined to that message and reported to the console only:
no entry is appended to the user-visible log, the connection state is
unchanged, no playback unit is scheduled, the session handle is
untouched, the console error count grows by one, and only the cursor's
max-with-clock update has taken place (the bad frame is dropped). -/
theorem decode_failure_dropped (clock : ℚ) (msg : ServerMessage) (p : List Char)
    (s : AppState) (ha : msg.audioData = some p) (hd : decodeFrame p = none)
    (hi : msg.interrupted = false) :
    (onmessage clock msg s).logs = s.logs ∧
    (onmessage clock msg s).connectionState = s.connectionState ∧
    (onmessage clock msg s).audioSources = s.audioSources ∧
    (onmessage clock msg s).sessionPromise = s.sessionPromise ∧
    (onmessage clock msg s).consoleErrors = s.consoleErrors + 1 ∧
    (onmessage clock msg s).nextStartTime = max s.nextStartTime clock := by
  rw [onmessage_audio_fail clock msg p s ha hi hd]
  exact ⟨rfl, rfl, rfl, rfl, rfl, rfl⟩

/-- Witness for the amended C7 at a concrete malformed payload. -/
theorem decode_failure_dropped_witness :
    (onmessage 2 ⟨some ['!'], false, false⟩ initState).logs = initState.logs ∧
    (onmessage 2 ⟨some ['!'], false, false⟩ initState).connectionState
      = initState.connectionState ∧
    (onmessage 2 ⟨some ['!'], false, false⟩ initState).audioSources
      = initState.audioSources ∧
    (onmessage 2 ⟨some ['!'], false, false⟩ initState).sessionPromise
      = initState.sessionPromise ∧
    (onmessage 2 ⟨some ['!'], false, false⟩ initState).consoleErrors
      = initState.consoleErrors + 1 ∧
    (onmessage 2 ⟨some ['!'], false, false⟩ initState).nextStartTime
      = max initState.nextStartTime 2 :=
  decode_failure_dropped 2 ⟨some ['!'], false, false⟩ ['!'] initState rfl (by decide) rfl

/-- **C8** is refuted as stated: the published estimate is the RMS
amplitude multiplied by 5, so a full-scale 4096-sample frame of
constant value `1` (all samples in `[-1, 1]`) yields a volume of `5`,
outside the claimed range `[0, 1]`. -/
theorem frameVolume_counterexample :
    frameVolume (List.replicate 4096 1) = 5 ∧
    ¬ frameVolume (List.replicate 4096 1) ≤ 1 := by
  have harg : ((sumSquares (List.replicate 4096 (1 : ℚ)) /
      ((List.replicate 4096 (1 : ℚ)).length : ℚ) : ℚ) : ℝ) = 1 := by
    norm_num [sumSquares, List.map_replicate, List.sum_replicate, List.length_replicate]
  have h : frameVolume (List.replicate 4096 1) = 5 := by
    unfold frameVolume
    rw [harg, Real.sqrt_one]
    norm_num
  refine ⟨h, ?_⟩
  rw [h]
  norm_num

/-- **C8** (amended) — The published volume estimate is the frame's
root-mean-square amplitude scaled by 5 for perceptibility: the
`onaudioprocess` handler publishes exactly `frameVolume`; for every
nonempty frame whose samples lie in `[-1, 1]` the estimate lies in
`[0, 5]` (not `[0, 1]`); and an all-zero (silent) 4096-sample frame
yields a volume of exactly `0`. -/
theorem frameVolume_bounds :
    (∀ (frame : List ℚ) (s : AppState),
      ((onaudioprocess frame s).1).volume = frameVolume frame) ∧
    (∀ samples : List ℚ, samples ≠ [] → (∀ x ∈ samples, |x| ≤ 1) →
      0 ≤ frameVolume samples ∧ frameVolume samples ≤ 5) ∧
    frameVolume (List.replicate 4096 0) = 0 := by
  refine ⟨?_, ?_, ?_⟩
  · intro frame s
    rcases s with ⟨cs, lg, mic, vol, aiv, ic, oc, ms, pr, sn, sp, nst, srcs, rc, ce⟩
    rcases sp with _ | u
    · rfl
    · rfl
  · intro samples hne hb
    have hlen : (0 : ℚ) < (samples.length : ℚ) := by
      rw [show ((0 : ℚ) = ((0 : ℕ) : ℚ)) from rfl, Nat.cast_lt]
      exact List.length_pos_iff_ne_nil.mpr hne
    have hsum0 : 0 ≤ sumSquares samples := by
      unfold sumSquares
      apply List.sum_nonneg
      intro y hy
      rw [List.mem_map] at hy
      obtain ⟨x, _, rfl⟩ := hy
      exact mul_self_nonneg x
    have hsum_le : sumSquares samples ≤ (samples.length : ℚ) := by
      unfold sumSquares
      calc (samples.map fun x => x * x).sum
          ≤ (samples.map fun x => x * x).length • (1 : ℚ) := by
            apply List.sum_le_card_nsmul
            intro y hy
            rw [List.mem_map] at hy
            obtain ⟨x, hx, rfl⟩ := hy
            have h1 := hb x hx
            rw [abs_le] at h1
            nlinarith [h1.1, h1.2]
        _ = (samples.length : ℚ) := by
            rw [List.length_map, nsmul_eq_mul, mul_one]
    have harg0 : (0 : ℚ) ≤ sumSquares samples / (samples.length : ℚ) := by positivity
    have harg1 : sumSquares samples / (samples.length : ℚ) ≤ 1 := by
      rw [div_le_one hlen]
      exact hsum_le
    constructor
    · unfold frameVolume
      exact mul_nonneg (Real.sqrt_nonneg _) (by norm_num)
    · unfold frameVolume
      have hs1 : Real.sqrt ((sumSquares samples / (samples.length : ℚ) : ℚ) : ℝ) ≤ 1 :=
        Real.sqrt_le_one.mpr (by exact_mod_cast harg1)
      nlinarith [Real.sqrt_nonneg ((sumSquares samples / (samples.length : ℚ) : ℚ) : ℝ)]
  · have harg : ((sumSquares (List.replicate 4096 (0 : ℚ)) /
        ((List.replicate 4096 (0 : ℚ)).length : ℚ) : ℚ) : ℝ) = 0 := by
      norm_num [sumSquares, List.map_replicate, List.sum_replicate, List.length_replicate]
    unfold frameVolume
    rw [harg, Real.sqrt_zero, zero_mul]

/-- Witness for the amended C8 at a concrete nonempty in-range frame. -/
theorem frameVolume_bounds_witness :
    0 ≤ frameVolume [1 / 2, -(1 / 3)] ∧ frameVolume [1 / 2, -(1 / 3)] ≤ 5 :=
  frameVolume_bounds.2.1 [1 / 2, -(1 / 3)] (by simp)
    (by
      intro x hx
      simp only [List.mem_cons, List.mem_singleton, List.not_mem_nil, or_false] at hx
      rcases hx with rfl | rfl <;> rw [abs_le] <;> constructor <;> norm_num)

/-!
## Connect failure handling (claim C6)
-/

/-- Two strings whose first characters differ are different, even after
appending an arbitrary suffix to the first. -/
theorem append_ne_of_head (p m q : String) (c d : Char)
    (hp : p.data.head? = some c) (hq : q.data.head? = some d) (hcd : c ≠ d) :
    p ++ m ≠ q := by
  intro hEq
  have hdata : p.data ++ m.data = q.data := congrArg String.data hEq
  cases hpd : p.data with
  | nil => rw [hpd] at hp; simp at hp
  | cons x xs =>
    rw [hpd, List.head?_cons] at hp
    injection hp with hp
    rw [hpd, List.cons_append] at hdata
    have hqx : q.data.head? = some x := by rw [← hdata, List.head?_cons]
    rw [hq] at hqx
    injection hqx with hqx
    exact hcd ((hqx.trans hp).symm ▸ rfl)

/-- The failure log text never coincides with the first progress log. -/
theorem connectFailLog_ne_init (m : String) :
    "Failed to connect: " ++ m ≠ "Initializing audio contexts..." :=
  append_ne_of_head _ m _ 'F' 'I' rfl rfl (by decide)

/-- The failure log text never coincides with the second progress log. -/
theorem connectFailLog_ne_req (m : String) :
    "Failed to connect: " ++ m ≠ "Requesting microphone access..." :=
  append_ne_of_head _ m _ 'F' 'R' rfl rfl (by decide)

/-- The failure log text never coincides with the third progress log. -/
theorem connectFailLog_ne_conn (m : String) :
    "Failed to connect: " ++ m ≠ "Connecting to Gemini Live API..." :=
  append_ne_of_head _ m _ 'F' 'C' rfl rfl (by decide)

/-- **C6** — Every exception thrown inside `connectToGemini` (audio
context creation, microphone permission, client construction, session
open) is caught by its top-level `try`/`catch` and never escapes: the
handler is a total function whose result, whenever any step fails, has
connection state `ERROR`, all resources released, and the log extended
by the attempt's progress entries plus exactly one entry describing the
failure (no progress entry carries the failure text). -/
theorem connect_failure_handled (env : ConnectEnv) (s : AppState)
    (h : env.inputCtxErr.isSome = true ∨ env.outputCtxErr.isSome = true ∨
      env.micErr.isSome = true ∨ env.clientErr.isSome = true ∨
      env.sessionErr.isSome = true) :
    (connectToGemini env s).connectionState = .ERROR ∧
    resourcesReleased (connectToGemini env s) ∧
    ∃ m pre, (connectToGemini env s).logs
        = s.logs ++ pre ++ [⟨.system, "Failed to connect: " ++ m⟩] ∧
      ∀ e ∈ pre, e.text ≠ "Failed to connect: " ++ m := by
  rcases env with ⟨ie, oe, me, cle, se⟩
  rcases ie with _ | m1
  · rcases oe with _ | m2
    · rcases me with _ | m3
      · rcases cle with _ | m4
        · rcases se with _ | m5
          · rcases h with h | h | h | h | h <;> simp at h
          · refine ⟨rfl, ⟨rfl, rfl, rfl, rfl, rfl, rfl, rfl, rfl⟩, m5,
              [⟨.system, "Initializing audio contexts..."⟩,
               ⟨.system, "Requesting microphone access..."⟩,
               ⟨.system, "Connecting to Gemini Live API..."⟩], ?_, ?_⟩
            · simp [connectToGemini, connectFail, addLog, cleanupAudio]
            · intro e he
              simp only [List.mem_cons, List.not_mem_nil, or_false] at he
              rcases he with rfl | rfl | rfl
              · exact (connectFailLog_ne_init m5).symm
              · exact (connectFailLog_ne_req m5).symm
              · exact (connectFailLog_ne_conn m5).symm
        · refine ⟨rfl, ⟨rfl, rfl, rfl, rfl, rfl, rfl, rfl, rfl⟩, m4,
            [⟨.system, "Initializing audio contexts..."⟩,
             ⟨.system, "Requesting microphone access..."⟩], ?_, ?_⟩
          · simp [connectToGemini, connectFail, addLog, cleanupAudio]
          · intro e he
            simp only [List.mem_cons, List.not_mem_nil, or_false] at he
            rcases he with rfl | rfl
            · exact (connectFailLog_ne_init m4).symm
            · exact (connectFailLog_ne_req m4).symm
      · refine ⟨rfl, ⟨rfl, rfl, rfl, rfl, rfl, rfl, rfl, rfl⟩, m3,
          [⟨.system, "Initializing audio contexts..."⟩,
           ⟨.system, "Requesting microphone access..."⟩], ?_, ?_⟩
        · simp [connectToGemini, connectFail, addLog, cleanupAudio]
        · intro e he
          simp only [List.mem_cons, List.not_mem_nil, or_false] at he
          rcases he with rfl | rfl
          · exact (connectFailLog_ne_init m3).symm
          · exact (connectFailLog_ne_req m3).symm
    · refine ⟨rfl, ⟨rfl, rfl, rfl, rfl, rfl, rfl, rfl, rfl⟩, m2,
        [⟨.system, "Initializing audio contexts..."⟩], ?_, ?_⟩
      · simp [connectToGemini, connectFail, addLog, cleanupAudio]
      · intro e he
        simp only [List.mem_cons, List.not_mem_nil, or_false] at he
        rcases he with rfl
        exact (connectFailLog_ne_init m2).symm
  · refine ⟨rfl, ⟨rfl, rfl, rfl, rfl, rfl, rfl, rfl, rfl⟩, m1,
      [⟨.system, "Initializing audio contexts..."⟩], ?_, ?_⟩
    · simp [connectToGemini, connectFail, addLog, cleanupAudio]
    · intro e he
      simp only [List.mem_cons, List.not_mem_nil, or_false] at he
      rcases he with rfl
      exact (connectFailLog_ne_init m1).symm

/-- Witness for C6 at a concrete microphone-permission failure. -/
theorem connect_failure_handled_witness :
    (connectToGemini ⟨none, none, some "denied", none, none⟩ initState).connectionState
        = .ERROR ∧
    resourcesReleased (connectToGemini ⟨none, none, some "denied", none, none⟩ initState) ∧
    ∃ m pre,
      (connectToGemini ⟨none, none, some "denied", none, none⟩ initState).logs
          = initState.logs ++ pre ++ [⟨.system, "Failed to connect: " ++ m⟩] ∧
        ∀ e ∈ pre, e.text ≠ "Failed to connect: " ++ m :=
  connect_failure_handled ⟨none, none, some "denied", none, none⟩ initState
    (Or.inr (Or.inr (Or.inl rfl)))

/-- Witness for C4 at a concrete two-sample in-range frame. -/
theorem encodeFrame_decodeFrame_roundTrip_witness :
    ∃ bytes, decodeFrame (encodeFrame [1 / 2, -(1 / 3)]).data = some bytes ∧
      (decodeAudioData bytes).length = ([1 / 2, -(1 / 3)] : List ℚ).length ∧
      List.Forall₂ (fun r x => |r - x| ≤ 1 / 32767) (decodeAudioData bytes)
        [1 / 2, -(1 / 3)] :=
  encodeFrame_decodeFrame_roundTrip [1 / 2, -(1 / 3)] (by
    intro x hx
    simp only [List.mem_cons, List.not_mem_nil, or_false] at hx
    rcases hx with rfl | rfl <;> rw [abs_le] <;> constructor <;> norm_num)
